import Mathlib

/-!
Verification development for the `Stocks_Streamlit` dashboard
(`src/stream.py`).

The program's data-shaping core is embedded shallowly:

* A provider response (`yf.download(..., group_by='ticker')`) is a map
  from ticker symbol to an optional series of raw OHLCV rows; `none`
  stands for the case where extracting that ticker's sub-frame raises
  (missing ticker / malformed response), which `fetch_yfinance_data`
  catches per ticker.
* Missing cell values (pandas `NaN`) are `Option ℚ` with `none` for `NaN`;
  dates are integers (any strictly ordered encoding of calendar dates).
* `Series.rolling(window=w).mean()` is `rollingMean`: with the default
  `min_periods = w`, position `i` gets a value exactly when the trailing
  window of `w` positions exists and carries `w` non-missing values.
* Fallible Python code is `Except`/`Option`: `pd.concat` on an empty list
  raises `ValueError("No objects to concatenate")`, and the module-level
  `try/except` turns any escaping exception into the single
  `st.error("Ocorreu um erro ao processar os dados: ...")` message with
  no charts, metrics or export rendered.
-/

namespace StocksStreamlit

/-- One raw provider row for a ticker: the columns of
`raw_data[ticker].reset_index()` in `stream.py`. Cell values other than
the date may be missing (pandas `NaN`). -/
structure RawRow where
  Date : ℤ
  Open : Option ℚ
  High : Option ℚ
  Low : Option ℚ
  Close : Option ℚ
  Volume : Option ℚ
deriving DecidableEq

/-- One row of the aggregated table built by `fetch_yfinance_data`:
a raw row plus the `Ticker` tag and the optional `MA` column.  When
`show_ma` is false the `MA` column does not exist in the DataFrame; that
is represented by `MA = none` on every row. -/
structure PriceRow where
  Date : ℤ
  Open : Option ℚ
  High : Option ℚ
  Low : Option ℚ
  Close : Option ℚ
  Volume : Option ℚ
  Ticker : String
  MA : Option ℚ
deriving DecidableEq

/-- `Series.rolling(window=w).mean()` at position `i`: the trailing
window is the positions `[i+1-w, i]` (truncated at 0); with pandas'
default `min_periods = w` a mean is produced only when the window holds
at least `w` non-missing values, and it is their sum divided by `w`. -/
def rollingMeanAt (w : ℕ) (xs : List (Option ℚ)) (i : ℕ) : Option ℚ :=
  let window := (xs.take (i + 1)).drop (i + 1 - w)
  let vals := window.filterMap id
  if w ≤ vals.length then some (vals.sum / (w : ℚ)) else none

/-- The whole rolling-mean column: one optional value per input position. -/
def rollingMean (w : ℕ) (xs : List (Option ℚ)) : List (Option ℚ) :=
  (List.range xs.length).map (rollingMeanAt w xs)

/-- The per-ticker body of the loop in `fetch_yfinance_data`
(`stream.py` lines 120-124): tag every raw row with the ticker and, when
`show_ma` is set, attach `df["Close"].rolling(window=ma_window).mean()`
as the `MA` column. -/
def processTicker (show_ma : Bool) (ma_window : ℕ) (ticker : String)
    (rs : List RawRow) : List PriceRow :=
  let mas := if show_ma then rollingMean ma_window (rs.map RawRow.Close)
             else List.replicate rs.length none
  (rs.zip mas).map fun p =>
    { Date := p.1.Date, Open := p.1.Open, High := p.1.High, Low := p.1.Low,
      Close := p.1.Close, Volume := p.1.Volume, Ticker := ticker, MA := p.2 }

/-- The `df_list` accumulated by the loop in `fetch_yfinance_data`:
tickers whose sub-frame extraction raises contribute nothing. -/
def dfList (raw_data : String → Option (List RawRow)) (tickers : List String)
    (show_ma : Bool) (ma_window : ℕ) : List (List PriceRow) :=
  tickers.filterMap fun t => (raw_data t).map (processTicker show_ma ma_window t)

/-- `fetch_yfinance_data` (`stream.py` lines 108-127) given the provider
response: returns the list of tickers for which the per-ticker
`st.warning` fired, together with either the concatenated table or the
`pd.concat` failure on an empty `df_list`. -/
def fetch_yfinance_data (raw_data : String → Option (List RawRow))
    (tickers : List String) (show_ma : Bool) (ma_window : ℕ) :
    List String × Except String (List PriceRow) :=
  let dfs := dfList raw_data tickers show_ma ma_window
  let warned := tickers.filter fun t => (raw_data t).isNone
  (warned,
    if dfs.isEmpty then Except.error "No objects to concatenate"
    else Except.ok dfs.flatten)

/-- `self.df_final[self.df_final["Ticker"] == ticker]["Close"].dropna()`:
the non-missing close values of one ticker's rows, in table order. -/
def tickerCloses (df_final : List PriceRow) (ticker : String) : List ℚ :=
  (df_final.filter fun r => r.Ticker == ticker).filterMap PriceRow.Close

/-- What the first column of `show_metrics` renders for one ticker:
either the `st.metric` with the last price, or the
`st.warning("Preço não encontrado ...")` from the `except` branch. -/
inductive Col1Out where
  | metric (ticker : String) (lastPrice : ℚ)
  | warn (ticker : String)
deriving DecidableEq

/-- The first-column body of `show_metrics` (`stream.py` lines 60-65) for
one ticker: `.iloc[-1]` of the dropna'd closes, the empty case raising
into the `except` that warns. -/
def lastPriceOutput (df_final : List PriceRow) (ticker : String) : Col1Out :=
  match (tickerCloses df_final ticker).getLast? with
  | some v => Col1Out.metric ticker v
  | none => Col1Out.warn ticker

/-- What the second column of `show_metrics` renders for one ticker.
`metric v` is `st.metric` with the finite percentage `v`.
`metricNonfinite` is `st.metric` with a non-finite value: when the
first non-missing close is zero, `series.iloc[0]` is a `numpy.float64`
and division by it does **not** raise — it yields `inf` (or `nan` for
`0/0`) with only a RuntimeWarning, so the bare `except: pass` never
fires and an `inf%`/`nan%` metric is rendered; the non-finite float
itself has no rational representation, so only the fact that a
non-finite metric is shown is recorded.  `skip` is the empty-series
case, where `.iloc` raises into the bare `except: pass` and nothing is
shown. -/
inductive Col2Out where
  | metric (variation : ℚ)
  | metricNonfinite
  | skip
deriving DecidableEq

/-- The second-column body of `show_metrics` (`stream.py` lines 67-73)
for one ticker: `(series.iloc[-1] - series.iloc[0]) / series.iloc[0] * 100`
over the dropna'd closes. -/
def variationOutput (df_final : List PriceRow) (ticker : String) : Col2Out :=
  match tickerCloses df_final ticker with
  | [] => Col2Out.skip
  | c :: cs =>
      if c = 0 then Col2Out.metricNonfinite
      else Col2Out.metric ((cs.getLastD c - c) / c * 100)

/-- The whole first column of `show_metrics`: one output per requested
ticker, in request order. -/
def showMetricsCol1 (df_final : List PriceRow) (tickers : List String) :
    List Col1Out :=
  tickers.map (lastPriceOutput df_final)

/-- The whole second column of `show_metrics`: one output per requested
ticker, in request order. -/
def showMetricsCol2 (df_final : List PriceRow) (tickers : List String) :
    List (String × Col2Out) :=
  tickers.map fun t => (t, variationOutput df_final t)

/-- Observable outcome of the module-level `try/except`
(`stream.py` lines 143-156). `df_final` is the `Stocks` object's table
(initialized to an empty DataFrame, so empty whenever `fetch_data`
raises); the `Option`/`Bool` fields record which surfaces were rendered. -/
structure AppRun where
  df_final : List PriceRow
  warned : List String
  col1 : Option (List Col1Out)
  col2 : Option (List (String × Col2Out))
  charts : Bool
  exported : Bool
  errorMsg : Option String
deriving DecidableEq

/-- The `st.error` text of the module-level `except` branch. -/
def errorText (e : String) : String :=
  "Ocorreu um erro ao processar os dados: " ++ e

/-- The module-level flow: `yf.download` may fail for the whole batch
(`download = Except.error`); otherwise `fetch_yfinance_data` runs, and on
its success the metrics, charts and export surfaces all render;
any escaping exception reaches the single `st.error`. -/
def runApp (download : Except String (String → Option (List RawRow)))
    (tickers : List String) (show_ma : Bool) (ma_window : ℕ) : AppRun :=
  match download with
  | Except.error e =>
      { df_final := [], warned := [], col1 := none, col2 := none,
        charts := false, exported := false, errorMsg := some (errorText e) }
  | Except.ok raw_data =>
      match fetch_yfinance_data raw_data tickers show_ma ma_window with
      | (warned, Except.error e) =>
          { df_final := [], warned := warned, col1 := none, col2 := none,
            charts := false, exported := false, errorMsg := some (errorText e) }
      | (warned, Except.ok table) =>
          { df_final := table, warned := warned,
            col1 := some (showMetricsCol1 table tickers),
            col2 := some (showMetricsCol2 table tickers),
            charts := true, exported := true, errorMsg := none }

/-- Python's `str.split(",")` on the character list of the input. -/
def splitCommas : List Char → List (List Char)
  | [] => [[]]
  | c :: cs =>
      if c = ',' then [] :: splitCommas cs
      else
        match splitCommas cs with
        | [] => [[c]]
        | g :: gs => (c :: g) :: gs

/-- Python's `str.strip()`: drop leading and trailing whitespace. -/
def pyStrip (cs : List Char) : List Char :=
  ((cs.dropWhile Char.isWhitespace).reverse.dropWhile Char.isWhitespace).reverse

/-- `stream.py` line 140:
`[t.strip().upper() for t in tickers_input.split(",") if t.strip()]`. -/
def parseTickers (input : List Char) : List String :=
  ((splitCommas input).filter fun tok => !(pyStrip tok).isEmpty).map fun tok =>
    String.mk ((pyStrip tok).map Char.toUpper)

/-! ### Basic facts about the embedded operations -/

lemma length_rollingMean (w : ℕ) (xs : List (Option ℚ)) :
    (rollingMean w xs).length = xs.length := by
  simp [rollingMean]

lemma getElem?_rollingMean (w : ℕ) (xs : List (Option ℚ)) (i : ℕ)
    (hi : i < xs.length) :
    (rollingMean w xs)[i]? = some (rollingMeanAt w xs i) := by
  simp [rollingMean, List.getElem?_map, List.getElem?_range hi]

lemma length_processTicker (sm : Bool) (w : ℕ) (t : String) (rs : List RawRow) :
    (processTicker sm w t rs).length = rs.length := by
  cases sm <;>
    simp [processTicker, List.length_zip, length_rollingMean]

lemma map_MA_processTicker (w : ℕ) (t : String) (rs : List RawRow) :
    (processTicker true w t rs).map PriceRow.MA
      = rollingMean w (rs.map RawRow.Close) := by
  unfold processTicker
  simp only [if_pos]
  rw [List.map_map]
  exact List.map_snd_zip rs _ (by rw [length_rollingMean, List.length_map])

lemma map_Date_processTicker (sm : Bool) (w : ℕ) (t : String)
    (rs : List RawRow) :
    (processTicker sm w t rs).map PriceRow.Date = rs.map RawRow.Date := by
  unfold processTicker
  rw [List.map_map]
  have : (PriceRow.Date ∘ fun p : RawRow × Option ℚ =>
      ({ Date := p.1.Date, Open := p.1.Open, High := p.1.High, Low := p.1.Low,
         Close := p.1.Close, Volume := p.1.Volume, Ticker := t,
         MA := p.2 } : PriceRow)) = RawRow.Date ∘ Prod.fst := rfl
  rw [this, ← List.map_map]
  congr 1
  apply List.map_fst_zip
  cases sm <;> simp [length_rollingMean]

lemma map_Ticker_processTicker (sm : Bool) (w : ℕ) (t : String)
    (rs : List RawRow) :
    (processTicker sm w t rs).map PriceRow.Ticker
      = List.replicate rs.length t := by
  rw [List.eq_replicate_iff]
  refine ⟨by rw [List.length_map, length_processTicker], ?_⟩
  intro b hb
  rw [List.mem_map] at hb
  obtain ⟨r, _, rfl⟩ := hb
  rename_i hr
  unfold processTicker at hr
  rw [List.mem_map] at hr
  obtain ⟨p, _, rfl⟩ := hr
  rfl

lemma Ticker_of_mem_processTicker {sm : Bool} {w : ℕ} {t : String}
    {rs : List RawRow} {r : PriceRow} (h : r ∈ processTicker sm w t rs) :
    r.Ticker = t := by
  unfold processTicker at h
  rw [List.mem_map] at h
  obtain ⟨p, _, rfl⟩ := h
  rfl

lemma of_mem_flatten_dfList {raw : String → Option (List RawRow)}
    {ts : List String} {sm : Bool} {w : ℕ} {r : PriceRow}
    (h : r ∈ (dfList raw ts sm w).flatten) :
    ∃ t rs, t ∈ ts ∧ raw t = some rs ∧ r ∈ processTicker sm w t rs := by
  rw [List.mem_flatten] at h
  obtain ⟨l, hl, hr⟩ := h
  rw [dfList, List.mem_filterMap] at hl
  obtain ⟨t, ht, hmap⟩ := hl
  rw [Option.map_eq_some'] at hmap
  obtain ⟨rs, hraw, rfl⟩ := hmap
  exact ⟨t, rs, ht, hraw, hr⟩

lemma rollingMeanAt_eq_none_of_lt (w : ℕ) (xs : List (Option ℚ)) (i : ℕ)
    (hiw : i + 1 < w) : rollingMeanAt w xs i = none := by
  unfold rollingMeanAt
  have h1 := List.length_filterMap_le (id : Option ℚ → Option ℚ)
    ((xs.take (i + 1)).drop (i + 1 - w))
  have h2 : ((xs.take (i + 1)).drop (i + 1 - w)).length
      ≤ (xs.take (i + 1)).length := by
    rw [List.length_drop]; omega
  have h3 : (xs.take (i + 1)).length ≤ i + 1 := by
    simp [List.length_take]
  rw [if_neg (by omega)]

lemma rollingMeanAt_of_window (w : ℕ) (xs : List (Option ℚ)) (i : ℕ)
    (window : List ℚ) (hi : i < xs.length) (hwi : w ≤ i + 1)
    (hwin : (xs.take (i + 1)).drop (i + 1 - w) = window.map some) :
    window.length = w ∧ rollingMeanAt w xs i = some (window.sum / (w : ℚ)) := by
  have hlenw : window.length = w := by
    have hl := congrArg List.length hwin
    simp only [List.length_drop, List.length_take, List.length_map] at hl
    omega
  refine ⟨hlenw, ?_⟩
  simp only [rollingMeanAt]
  rw [hwin, List.filterMap_map]
  have hid : ((id : Option ℚ → Option ℚ) ∘ some) = some := rfl
  rw [hid, List.filterMap_some, hlenw, if_pos le_rfl]

lemma rollingMeanAt_append (w : ℕ) (xs ys : List (Option ℚ)) (i : ℕ)
    (hi : i < xs.length) :
    rollingMeanAt w (xs ++ ys) i = rollingMeanAt w xs i := by
  unfold rollingMeanAt
  rw [List.take_append_of_le_length (by omega)]

lemma length_filterMap_id_lt {l : List (Option ℚ)} (h : none ∈ l) :
    (l.filterMap id).length < l.length := by
  induction l with
  | nil => cases h
  | cons a l ih =>
    cases a with
    | none =>
      have := List.length_filterMap_le (id : Option ℚ → Option ℚ) l
      simp only [List.filterMap_cons, id_eq, List.length_cons]
      omega
    | some v =>
      have hmem : none ∈ l := by
        rcases List.mem_cons.mp h with h' | h'
        · cases h'
        · exact h'
      simp only [List.filterMap_cons, id_eq, List.length_cons]
      exact Nat.succ_lt_succ (ih hmem)

lemma rollingMeanAt_of_none (w : ℕ) (xs : List (Option ℚ)) (j i : ℕ)
    (hj : xs[j]? = some none) (hji : j ≤ i) (hiw : i < j + w)
    (hi : i < xs.length) : rollingMeanAt w xs i = none := by
  unfold rollingMeanAt
  have hnone : none ∈ (xs.take (i + 1)).drop (i + 1 - w) := by
    have h1 : (xs.take (i + 1))[j]? = some (none : Option ℚ) := by
      rw [List.getElem?_take, if_pos (by omega)]; exact hj
    have h2 : ((xs.take (i + 1)).drop (i + 1 - w))[j - (i + 1 - w)]?
        = some (none : Option ℚ) := by
      rw [List.getElem?_drop, show (i + 1 - w) + (j - (i + 1 - w)) = j by omega]
      exact h1
    exact List.getElem?_mem h2
  have hlt := length_filterMap_id_lt hnone
  have hwle : ((xs.take (i + 1)).drop (i + 1 - w)).length ≤ w := by
    rw [List.length_drop]
    have h3 : (xs.take (i + 1)).length ≤ i + 1 := by simp [List.length_take]
    omega
  rw [if_neg (by omega)]

/-! ### The claims -/

/-- **C1**: for every ticker with `computeMA` on, the `MA` column is the
rolling mean of the closes; at position `i < W-1` it is explicitly
absent, at `i ≥ W-1` with all `W` window closes present it is the
arithmetic mean of the closes at positions `[i-W+1, i]` (a window of
exactly `W` values, summed and divided by `W`); and the value at `i`
never changes when rows after position `i` are appended. -/
theorem claim1_moving_average (w : ℕ) (t : String) (rs : List RawRow) (i : ℕ)
    (hw : 1 ≤ w) (hi : i < rs.length) :
    (processTicker true w t rs).map PriceRow.MA
        = rollingMean w (rs.map RawRow.Close) ∧
    (i + 1 < w → (rollingMean w (rs.map RawRow.Close))[i]? = some none) ∧
    (∀ window : List ℚ, w ≤ i + 1 →
      ((rs.map RawRow.Close).take (i + 1)).drop (i + 1 - w) = window.map some →
      window.length = w ∧
        (rollingMean w (rs.map RawRow.Close))[i]?
          = some (some (window.sum / (w : ℚ)))) ∧
    (∀ rs2 : List RawRow,
      (rollingMean w ((rs ++ rs2).map RawRow.Close))[i]?
        = (rollingMean w (rs.map RawRow.Close))[i]?) := by
  have hi' : i < (rs.map RawRow.Close).length := by simpa using hi
  refine ⟨map_MA_processTicker w t rs, ?_, ?_, ?_⟩
  · intro hiw
    rw [getElem?_rollingMean _ _ _ hi', rollingMeanAt_eq_none_of_lt _ _ _ hiw]
  · intro window hwi hwin
    obtain ⟨h1, h2⟩ := rollingMeanAt_of_window w _ i window hi' hwi hwin
    exact ⟨h1, by rw [getElem?_rollingMean _ _ _ hi', h2]⟩
  · intro rs2
    have hap : i < ((rs ++ rs2).map RawRow.Close).length := by
      simp only [List.length_map, List.length_append]; omega
    rw [getElem?_rollingMean _ _ _ hap, getElem?_rollingMean _ _ _ hi',
      List.map_append, rollingMeanAt_append w _ _ i hi']

/-- Witness for C1 at `W = 2` over three rows with closes `1, 2, 4`:
the hypotheses hold and the moving average at position 2 is `(2+4)/2`. -/
theorem claim1_moving_average_witness :
    (1 ≤ 2 ∧
      2 < ([⟨0, none, none, none, some 1, none⟩,
            ⟨1, none, none, none, some 2, none⟩,
            ⟨2, none, none, none, some 4, none⟩] : List RawRow).length) ∧
    ((processTicker true 2 "A"
        [⟨0, none, none, none, some 1, none⟩,
         ⟨1, none, none, none, some 2, none⟩,
         ⟨2, none, none, none, some 4, none⟩]).map PriceRow.MA
        = rollingMean 2
            (([⟨0, none, none, none, some 1, none⟩,
               ⟨1, none, none, none, some 2, none⟩,
               ⟨2, none, none, none, some 4, none⟩] : List RawRow).map
              RawRow.Close) ∧
    (2 + 1 < 2 → (rollingMean 2
        (([⟨0, none, none, none, some 1, none⟩,
           ⟨1, none, none, none, some 2, none⟩,
           ⟨2, none, none, none, some 4, none⟩] : List RawRow).map
          RawRow.Close))[2]? = some none) ∧
    (∀ window : List ℚ, 2 ≤ 2 + 1 →
      ((([⟨0, none, none, none, some 1, none⟩,
          ⟨1, none, none, none, some 2, none⟩,
          ⟨2, none, none, none, some 4, none⟩] : List RawRow).map
            RawRow.Close).take (2 + 1)).drop (2 + 1 - 2) = window.map some →
      window.length = 2 ∧
        (rollingMean 2
          (([⟨0, none, none, none, some 1, none⟩,
             ⟨1, none, none, none, some 2, none⟩,
             ⟨2, none, none, none, some 4, none⟩] : List RawRow).map
            RawRow.Close))[2]? = some (some (window.sum / (2 : ℚ)))) ∧
    (∀ rs2 : List RawRow,
      (rollingMean 2
        ((([⟨0, none, none, none, some 1, none⟩,
            ⟨1, none, none, none, some 2, none⟩,
            ⟨2, none, none, none, some 4, none⟩] : List RawRow) ++ rs2).map
          RawRow.Close))[2]?
        = (rollingMean 2
            (([⟨0, none, none, none, some 1, none⟩,
               ⟨1, none, none, none, some 2, none⟩,
               ⟨2, none, none, none, some 4, none⟩] : List RawRow).map
              RawRow.Close))[2]?)) :=
  ⟨⟨by decide, by decide⟩,
    claim1_moving_average 2 "A"
      [⟨0, none, none, none, some 1, none⟩,
       ⟨1, none, none, none, some 2, none⟩,
       ⟨2, none, none, none, some 4, none⟩] 2 (by decide) (by decide)⟩

/-- **C9**: a missing close at position `j` makes the moving average
absent at `j` itself and at every later position whose trailing window
still contains `j`, i.e. at all `i` with `j ≤ i < j + W`. -/
theorem claim9_missing_close_blanks_ma (w : ℕ) (t : String) (rs : List RawRow)
    (j i : ℕ) (hj : (rs.map RawRow.Close)[j]? = some none) (hji : j ≤ i)
    (hiw : i < j + w) (hi : i < rs.length) :
    ((processTicker true w t rs).map PriceRow.MA)[i]? = some none := by
  have hi' : i < (rs.map RawRow.Close).length := by simpa using hi
  rw [map_MA_processTicker, getElem?_rollingMean _ _ _ hi',
    rollingMeanAt_of_none w _ j i hj hji hiw hi']

/-- Witness for C9 at `W = 3` over closes `1, NaN, 2`: the missing close
at position 1 blanks the moving average at position 2, the first
position whose trailing window is full. -/
theorem claim9_missing_close_blanks_ma_witness :
    ((([⟨0, none, none, none, some 1, none⟩,
        ⟨1, none, none, none, none, none⟩,
        ⟨2, none, none, none, some 2, none⟩] : List RawRow).map
          RawRow.Close)[1]? = some none ∧ 1 ≤ 2 ∧ 2 < 1 + 3 ∧
      2 < ([⟨0, none, none, none, some 1, none⟩,
            ⟨1, none, none, none, none, none⟩,
            ⟨2, none, none, none, some 2, none⟩] : List RawRow).length) ∧
    ((processTicker true 3 "B"
        [⟨0, none, none, none, some 1, none⟩,
         ⟨1, none, none, none, none, none⟩,
         ⟨2, none, none, none, some 2, none⟩]).map PriceRow.MA)[2]?
      = some none :=
  ⟨⟨by decide, by decide, by decide, by decide⟩,
    claim9_missing_close_blanks_ma 3 "B"
      [⟨0, none, none, none, some 1, none⟩,
       ⟨1, none, none, none, none, none⟩,
       ⟨2, none, none, none, some 2, none⟩] 1 2 (by decide) (by decide)
      (by decide) (by decide)⟩

/-- **C2, counterexample**: a ticker whose filtered subset has exactly
one non-missing close (here `5`) still gets a period-variation metric.
`series.iloc[-1]` and `series.iloc[0]` both address the lone element, so
the code computes `(5 - 5)/5 * 100 = 0` and `st.metric` shows `0.00%`;
the claim says the metric requires at least 2 valid closes. -/
theorem claim2_counterexample :
    (tickerCloses [⟨0, none, none, none, some 5, none, "A", none⟩]
      "A").length = 1 ∧
    variationOutput [⟨0, none, none, none, some 5, none, "A", none⟩] "A"
      = Col2Out.metric 0 ∧
    showMetricsCol2 [⟨0, none, none, none, some 5, none, "A", none⟩] ["A"]
      = [("A", Col2Out.metric 0)] := by
  have hc : tickerCloses [⟨0, none, none, none, some 5, none, "A", none⟩] "A"
      = [5] := by decide
  have hv : variationOutput [⟨0, none, none, none, some 5, none, "A", none⟩]
      "A" = Col2Out.metric 0 := by
    simp only [variationOutput, hc]
    norm_num
  refine ⟨by decide, hv, ?_⟩
  simp [showMetricsCol2, hv]

/-- **C2, amended**: a period-variation metric is rendered for every
ticker whose filtered subset has at least **1** non-missing close: when
the first non-missing close is nonzero it equals
`(last_close - first_close) / first_close * 100` over the non-missing
closes (zero when only one valid close exists), and when the first
non-missing close is zero the numpy float division by zero does not
raise, so a metric with a non-finite (`inf`/`nan`) value is rendered;
only a subset with no valid close is silently skipped. -/
theorem claim2_variation_amended (df : List PriceRow) (t : String) :
    (tickerCloses df t = [] → variationOutput df t = Col2Out.skip) ∧
    ∀ c cs, tickerCloses df t = c :: cs →
      (c = 0 → variationOutput df t = Col2Out.metricNonfinite) ∧
      (c ≠ 0 → variationOutput df t
        = Col2Out.metric ((cs.getLastD c - c) / c * 100)) := by
  constructor
  · intro h
    simp only [variationOutput, h]
  · intro c cs h
    constructor
    · intro hc
      simp only [variationOutput, h, if_pos hc]
    · intro hc
      simp only [variationOutput, h, if_neg hc]

/-- Witness for C2 (amended) on a two-row table with closes `5, 9`:
first close `5 ≠ 0` and the metric equals `(9-5)/5*100`. -/
theorem claim2_variation_amended_witness :
    tickerCloses [⟨0, none, none, none, some 5, none, "A", none⟩,
                  ⟨1, none, none, none, some 9, none, "A", none⟩] "A"
      = 5 :: [9] ∧ (5 : ℚ) ≠ 0 ∧
    variationOutput [⟨0, none, none, none, some 5, none, "A", none⟩,
                     ⟨1, none, none, none, some 9, none, "A", none⟩] "A"
      = Col2Out.metric ((([9] : List ℚ).getLastD 5 - 5) / 5 * 100) :=
  ⟨by decide, by decide,
    ((claim2_variation_amended
      [⟨0, none, none, none, some 5, none, "A", none⟩,
       ⟨1, none, none, none, some 9, none, "A", none⟩] "A").2 5 [9]
        (by decide)).2 (by decide)⟩

lemma getLast?_filterMap_close (l : List PriceRow) (r : PriceRow) (c : ℚ)
    (hpw : l.Pairwise (fun a b => a.Date < b.Date)) (hr : r ∈ l)
    (hc : r.Close = some c)
    (hmax : ∀ x ∈ l, x.Close.isSome → x.Date ≤ r.Date) :
    (l.filterMap PriceRow.Close).getLast? = some c := by
  induction l with
  | nil => cases hr
  | cons a l ih =>
    rcases List.mem_cons.mp hr with rfl | hrl
    · have htail : ∀ x ∈ l, x.Close = none := by
        intro x hx
        by_contra hne
        have hsome : x.Close.isSome := Option.ne_none_iff_isSome.mp hne
        have h1 : x.Date ≤ r.Date :=
          hmax x (List.mem_cons_of_mem _ hx) hsome
        have h2 : r.Date < x.Date := (List.pairwise_cons.mp hpw).1 x hx
        omega
      have hnil : l.filterMap PriceRow.Close = [] :=
        List.filterMap_eq_nil_iff.mpr htail
      simp only [List.filterMap_cons, hc, hnil]
      rfl
    · have hne : l.filterMap PriceRow.Close ≠ [] := by
        intro hnil
        have := List.filterMap_eq_nil_iff.mp hnil r hrl
        rw [hc] at this
        cases this
      have htl : (l.filterMap PriceRow.Close).getLast? = some c :=
        ih (List.pairwise_cons.mp hpw).2 hrl
          (fun x hx hs => hmax x (List.mem_cons_of_mem _ hx) hs)
      cases ha : a.Close with
      | none => simpa only [List.filterMap_cons, ha] using htl
      | some v =>
        simp only [List.filterMap_cons, ha]
        cases hfm : l.filterMap PriceRow.Close with
        | nil => exact absurd hfm hne
        | cons b bs =>
          rw [hfm] at htl
          rw [List.getLast?_cons_cons]
          exact htl

/-- **C6**: last-price metric.  Under ascending dates within the
ticker's rows, when no row of the ticker has a non-missing close the
column renders the "not found" warning for that ticker, and when `r` is
the chronologically last row of the ticker with a non-missing close `c`
the column renders the metric `c`. -/
theorem claim6_last_price (df : List PriceRow) (t : String)
    (hasc : List.Chain' (fun a b : PriceRow => a.Date < b.Date)
      (df.filter fun r => r.Ticker == t)) :
    ((∀ r ∈ df, r.Ticker = t → r.Close = none) →
      lastPriceOutput df t = Col1Out.warn t) ∧
    (∀ r c, r ∈ df → r.Ticker = t → r.Close = some c →
      (∀ x ∈ df, x.Ticker = t → x.Close.isSome → x.Date ≤ r.Date) →
      lastPriceOutput df t = Col1Out.metric t c) := by
  haveI : IsTrans PriceRow (fun a b => a.Date < b.Date) :=
    ⟨fun _ _ _ h1 h2 => lt_trans h1 h2⟩
  have hpw : (df.filter fun r => r.Ticker == t).Pairwise
      (fun a b => a.Date < b.Date) := List.chain'_iff_pairwise.mp hasc
  constructor
  · intro hall
    have hnil : tickerCloses df t = [] := by
      rw [tickerCloses, List.filterMap_eq_nil_iff]
      intro x hx
      rw [List.mem_filter] at hx
      exact hall x hx.1 (by simpa using hx.2)
    simp only [lastPriceOutput, hnil]
    rfl
  · intro r c hr ht hc hmax
    have hmem : r ∈ df.filter fun x => x.Ticker == t :=
      List.mem_filter.mpr ⟨hr, by simpa using ht⟩
    have hlast : (tickerCloses df t).getLast? = some c := by
      rw [tickerCloses]
      exact getLast?_filterMap_close _ r c hpw hmem hc
        (fun x hx hs =>
          hmax x (List.mem_filter.mp hx).1
            (by simpa using (List.mem_filter.mp hx).2) hs)
    simp only [lastPriceOutput, hlast]

/-- Witness for C6 on a two-row ascending table for ticker `"A"` with
closes `5, 9`: the rendered metric is the latest close `9`. -/
theorem claim6_last_price_witness :
    List.Chain' (fun a b : PriceRow => a.Date < b.Date)
      (([⟨0, none, none, none, some 5, none, "A", none⟩,
         ⟨1, none, none, none, some 9, none, "A", none⟩] :
          List PriceRow).filter fun r => r.Ticker == "A") ∧
    lastPriceOutput [⟨0, none, none, none, some 5, none, "A", none⟩,
                     ⟨1, none, none, none, some 9, none, "A", none⟩] "A"
      = Col1Out.metric "A" 9 :=
  ⟨by simp [List.filter_cons, List.chain'_cons],
    (claim6_last_price
      [⟨0, none, none, none, some 5, none, "A", none⟩,
       ⟨1, none, none, none, some 9, none, "A", none⟩] "A"
      (by simp [List.filter_cons, List.chain'_cons])).2
      ⟨1, none, none, none, some 9, none, "A", none⟩ 9 (by decide) rfl rfl
      (by decide)⟩

lemma dfList_nil_of_all_none {raw : String → Option (List RawRow)}
    {ts : List String} {sm : Bool} {w : ℕ} (h : ∀ t ∈ ts, raw t = none) :
    dfList raw ts sm w = [] := by
  rw [dfList, List.filterMap_eq_nil_iff]
  intro t ht
  rw [h t ht]
  rfl

/-- **C4**: a ticker `t0` whose data is absent is warned about and its
rows are excluded, while the aggregation still succeeds as long as some
requested ticker `t1` has data; every row of the result belongs to a
ticker whose retrieval succeeded. -/
theorem claim4_per_ticker_failure (raw : String → Option (List RawRow))
    (tickers : List String) (sm : Bool) (w : ℕ) (t0 t1 : String)
    (h0 : t0 ∈ tickers) (hfail : raw t0 = none)
    (h1 : t1 ∈ tickers) (hsucc : (raw t1).isSome) :
    t0 ∈ (fetch_yfinance_data raw tickers sm w).1 ∧
    ∃ table, (fetch_yfinance_data raw tickers sm w).2 = Except.ok table ∧
      ∀ r ∈ table, (raw r.Ticker).isSome ∧ r.Ticker ≠ t0 := by
  obtain ⟨rs1, hrs1⟩ := Option.isSome_iff_exists.mp hsucc
  have hmem : processTicker sm w t1 rs1 ∈ dfList raw tickers sm w :=
    List.mem_filterMap.mpr ⟨t1, h1, by rw [hrs1]; rfl⟩
  have hne : (dfList raw tickers sm w).isEmpty = false := by
    cases hE : (dfList raw tickers sm w).isEmpty
    · rfl
    · rw [List.isEmpty_iff] at hE
      rw [hE] at hmem
      cases hmem
  refine ⟨?_, (dfList raw tickers sm w).flatten, ?_, ?_⟩
  · simp only [fetch_yfinance_data]
    exact List.mem_filter.mpr ⟨h0, by rw [hfail]; rfl⟩
  · simp only [fetch_yfinance_data, hne]
    rfl
  · intro r hr
    obtain ⟨t, rs, _, htraw, hmem'⟩ := of_mem_flatten_dfList hr
    have hT : r.Ticker = t := Ticker_of_mem_processTicker hmem'
    refine ⟨by rw [hT, htraw]; rfl, ?_⟩
    intro hEq
    rw [hT] at hEq
    subst hEq
    rw [hfail] at htraw
    cases htraw

/-- Witness for C4: ticker `"B"` has no data while `"A"` does; `"B"` is
warned about and the resulting rows all carry ticker `"A"`. -/
theorem claim4_per_ticker_failure_witness :
    ("B" ∈ (["A", "B"] : List String) ∧
      (fun t => if t = "A"
        then some [(⟨0, none, none, none, some 5, none⟩ : RawRow)]
        else none) "B" = none ∧
      "A" ∈ (["A", "B"] : List String) ∧
      ((fun t => if t = "A"
        then some [(⟨0, none, none, none, some 5, none⟩ : RawRow)]
        else none) "A").isSome) ∧
    "B" ∈ (fetch_yfinance_data
      (fun t => if t = "A"
        then some [(⟨0, none, none, none, some 5, none⟩ : RawRow)]
        else none) ["A", "B"] false 20).1 ∧
    ∃ table, (fetch_yfinance_data
      (fun t => if t = "A"
        then some [(⟨0, none, none, none, some 5, none⟩ : RawRow)]
        else none) ["A", "B"] false 20).2 = Except.ok table ∧
      ∀ r ∈ table,
        ((fun t => if t = "A"
          then some [(⟨0, none, none, none, some 5, none⟩ : RawRow)]
          else none) r.Ticker).isSome ∧ r.Ticker ≠ "B" :=
  ⟨⟨by decide, by decide, by decide, by decide⟩,
    claim4_per_ticker_failure
      (fun t => if t = "A"
        then some [(⟨0, none, none, none, some 5, none⟩ : RawRow)]
        else none) ["A", "B"] false 20 "B" "A"
      (by decide) (by decide) (by decide) (by decide)⟩

/-- **C5**: when the provider call fails for the whole batch, or no
requested ticker yields any data, the run ends in the single
`st.error` message, `df_final` stays empty, and neither metrics column,
nor charts, nor the export buttons are rendered. -/
theorem claim5_total_failure
    (download : Except String (String → Option (List RawRow)))
    (tickers : List String) (sm : Bool) (w : ℕ)
    (h : (∃ e, download = Except.error e) ∨
      ∃ raw, download = Except.ok raw ∧ ∀ t ∈ tickers, raw t = none) :
    (runApp download tickers sm w).df_final = [] ∧
    (∃ m, (runApp download tickers sm w).errorMsg = some (errorText m)) ∧
    (runApp download tickers sm w).col1 = none ∧
    (runApp download tickers sm w).col2 = none ∧
    (runApp download tickers sm w).charts = false ∧
    (runApp download tickers sm w).exported = false := by
  rcases h with ⟨e, rfl⟩ | ⟨raw, rfl, hall⟩
  · exact ⟨rfl, ⟨e, rfl⟩, rfl, rfl, rfl, rfl⟩
  · have hfetch : fetch_yfinance_data raw tickers sm w
        = (tickers.filter fun t => (raw t).isNone,
           Except.error "No objects to concatenate") := by
      simp only [fetch_yfinance_data, dfList_nil_of_all_none hall]
      rfl
    simp only [runApp, hfetch]
    refine ⟨?_, ⟨"No objects to concatenate", ?_⟩, ?_, ?_, ?_, ?_⟩ <;> trivial

/-- Witness for C5 in the no-data case: both requested tickers resolve
to nothing, so the app run reports the empty-concatenation error and
renders no surface. -/
theorem claim5_total_failure_witness :
    ((∃ e, (Except.ok (fun _ => none) :
        Except String (String → Option (List RawRow)))
          = Except.error e) ∨
      ∃ raw, (Except.ok (fun _ => none) :
        Except String (String → Option (List RawRow))) = Except.ok raw ∧
          ∀ t ∈ (["A", "B"] : List String), raw t = none) ∧
    (runApp (Except.ok fun _ => none) ["A", "B"] true 20).df_final = [] ∧
    (∃ m, (runApp (Except.ok fun _ => none) ["A", "B"] true 20).errorMsg
        = some (errorText m)) ∧
    (runApp (Except.ok fun _ => none) ["A", "B"] true 20).col1 = none ∧
    (runApp (Except.ok fun _ => none) ["A", "B"] true 20).col2 = none ∧
    (runApp (Except.ok fun _ => none) ["A", "B"] true 20).charts = false ∧
    (runApp (Except.ok fun _ => none) ["A", "B"] true 20).exported = false :=
  ⟨Or.inr ⟨fun _ => none, rfl, fun t _ => rfl⟩,
    claim5_total_failure (Except.ok fun _ => none) ["A", "B"] true 20
      (Or.inr ⟨fun _ => none, rfl, fun t _ => rfl⟩)⟩

lemma dfList_congr {raw1 raw2 : String → Option (List RawRow)}
    (ts : List String) (sm : Bool) (w : ℕ)
    (h : ∀ t ∈ ts, raw1 t = raw2 t) :
    dfList raw1 ts sm w = dfList raw2 ts sm w := by
  induction ts with
  | nil => rfl
  | cons t ts ih =>
    have ih' := ih (fun x hx => h x (List.mem_cons_of_mem _ hx))
    simp only [dfList, List.filterMap_cons] at ih' ⊢
    rw [h t (List.mem_cons_self t ts), ih']

/-- **C7**: the aggregation is deterministic — it depends only on the
provider's responses for the requested tickers, so two provider
responses that agree on every requested ticker produce identical
results (table, warnings, and error behaviour alike). -/
theorem claim7_deterministic (raw1 raw2 : String → Option (List RawRow))
    (tickers : List String) (sm : Bool) (w : ℕ)
    (h : ∀ t ∈ tickers, raw1 t = raw2 t) :
    fetch_yfinance_data raw1 tickers sm w
      = fetch_yfinance_data raw2 tickers sm w := by
  have hwarn : (tickers.filter fun t => (raw1 t).isNone)
      = tickers.filter fun t => (raw2 t).isNone :=
    List.filter_congr (fun x hx => by rw [h x hx])
  simp only [fetch_yfinance_data, dfList_congr tickers sm w h, hwarn]

/-- Witness for C7: two providers that agree on the requested ticker
`"A"` but differ on the unrequested `"Z"` yield equal aggregations. -/
theorem claim7_deterministic_witness :
    (∀ t ∈ (["A"] : List String),
      (fun _ => (none : Option (List RawRow))) t
        = (fun t => if t = "Z"
            then some [(⟨0, none, none, none, some 1, none⟩ : RawRow)]
            else none) t) ∧
    fetch_yfinance_data (fun _ => none) ["A"] false 20
      = fetch_yfinance_data
          (fun t => if t = "Z"
            then some [(⟨0, none, none, none, some 1, none⟩ : RawRow)]
            else none) ["A"] false 20 :=
  ⟨by decide,
    claim7_deterministic (fun _ => none)
      (fun t => if t = "Z"
        then some [(⟨0, none, none, none, some 1, none⟩ : RawRow)]
        else none) ["A"] false 20 (by decide)⟩

/-- **C10**: when the parsed ticker list is empty, the aggregation does
not return an empty table: `pd.concat` on zero frames raises
`"No objects to concatenate"`, which the top level surfaces as the
aggregation error message (with `df_final` left empty). -/
theorem claim10_empty_tickers (raw : String → Option (List RawRow))
    (input : List Char) (sm : Bool) (w : ℕ)
    (hp : parseTickers input = []) :
    (fetch_yfinance_data raw (parseTickers input) sm w).2
        = Except.error "No objects to concatenate" ∧
    (runApp (Except.ok raw) (parseTickers input) sm w).df_final = [] ∧
    (runApp (Except.ok raw) (parseTickers input) sm w).errorMsg
        = some (errorText "No objects to concatenate") := by
  rw [hp]
  exact ⟨rfl, rfl, rfl⟩

/-- Witness for C10 on the input `" , "` (only whitespace and commas):
the parsed list is empty and the run ends in the concatenation error. -/
theorem claim10_empty_tickers_witness :
    parseTickers [' ', ',', ' '] = [] ∧
    (fetch_yfinance_data (fun _ => none) (parseTickers [' ', ',', ' '])
        true 20).2 = Except.error "No objects to concatenate" ∧
    (runApp (Except.ok fun _ => none) (parseTickers [' ', ',', ' '])
        true 20).df_final = [] ∧
    (runApp (Except.ok fun _ => none) (parseTickers [' ', ',', ' '])
        true 20).errorMsg = some (errorText "No objects to concatenate") :=
  ⟨by decide,
    claim10_empty_tickers (fun _ => none) [' ', ',', ' '] true 20 (by decide)⟩

lemma dfList_cons_some {raw : String → Option (List RawRow)} {x : String}
    {rs : List RawRow} {ts : List String} {sm : Bool} {w : ℕ}
    (hx : raw x = some rs) :
    dfList raw (x :: ts) sm w
      = processTicker sm w x rs :: dfList raw ts sm w := by
  simp only [dfList, List.filterMap_cons, hx, Option.map_some']

lemma dfList_cons_none {raw : String → Option (List RawRow)} {x : String}
    {ts : List String} {sm : Bool} {w : ℕ} (hx : raw x = none) :
    dfList raw (x :: ts) sm w = dfList raw ts sm w := by
  simp only [dfList, List.filterMap_cons, hx, Option.map_none']

lemma table_of_fetch_ok {raw : String → Option (List RawRow)}
    {ts : List String} {sm : Bool} {w : ℕ} {table : List PriceRow}
    (hok : (fetch_yfinance_data raw ts sm w).2 = Except.ok table) :
    table = (dfList raw ts sm w).flatten := by
  cases hE : (dfList raw ts sm w).isEmpty with
  | true =>
    simp only [fetch_yfinance_data, hE] at hok
    cases hok
  | false =>
    simp only [fetch_yfinance_data, hE] at hok
    simpa using hok.symm

lemma filter_flatten_dfList_nil {raw : String → Option (List RawRow)}
    {ts : List String} {sm : Bool} {w : ℕ} {t : String}
    (h : t ∉ ts ∨ raw t = none) :
    ((dfList raw ts sm w).flatten).filter (fun r => r.Ticker == t) = [] := by
  rw [List.filter_eq_nil_iff]
  intro r hr
  obtain ⟨t', rs, ht', hraw', hmem⟩ := of_mem_flatten_dfList hr
  rw [Ticker_of_mem_processTicker hmem]
  simp only [beq_iff_eq]
  intro hEq
  subst hEq
  rcases h with h | h
  · exact h ht'
  · rw [h] at hraw'
    cases hraw'

lemma filter_flatten_dfList_block (raw : String → Option (List RawRow))
    (sm : Bool) (w : ℕ) :
    ∀ (ts : List String), ts.Nodup → ∀ (t : String) (rs : List RawRow),
      t ∈ ts → raw t = some rs →
      ((dfList raw ts sm w).flatten).filter (fun r => r.Ticker == t)
        = processTicker sm w t rs := by
  intro ts
  induction ts with
  | nil =>
    intro _ t rs ht
    cases ht
  | cons x ts ih =>
    intro hnd t rs ht hraw
    rw [List.nodup_cons] at hnd
    by_cases hxt : x = t
    · subst hxt
      rw [dfList_cons_some hraw, List.flatten_cons, List.filter_append]
      rw [List.filter_eq_self.mpr (fun r hr => by
        rw [Ticker_of_mem_processTicker hr]; exact beq_self_eq_true x)]
      rw [filter_flatten_dfList_nil (Or.inl hnd.1), List.append_nil]
    · have ht' : t ∈ ts := by
        rcases List.mem_cons.mp ht with h | h
        · exact absurd h.symm hxt
        · exact h
      cases hx : raw x with
      | none =>
        rw [dfList_cons_none hx]
        exact ih hnd.2 t rs ht' hraw
      | some rsx =>
        rw [dfList_cons_some hx, List.flatten_cons, List.filter_append]
        rw [List.filter_eq_nil_iff.mpr (fun r hr => by
          rw [Ticker_of_mem_processTicker hr]
          simp only [beq_iff_eq]
          exact hxt), List.nil_append]
        exact ih hnd.2 t rs ht' hraw

lemma map_Ticker_flatten_dfList (raw : String → Option (List RawRow))
    (sm : Bool) (w : ℕ) :
    ∀ ts : List String, ∃ ns : List ℕ,
      ((dfList raw ts sm w).flatten).map PriceRow.Ticker
        = (((ts.filter fun t => (raw t).isSome).zip ns).map
            fun p => List.replicate p.2 p.1).flatten := by
  intro ts
  induction ts with
  | nil => exact ⟨[], rfl⟩
  | cons x ts ih =>
    obtain ⟨ns, hns⟩ := ih
    cases hx : raw x with
    | none =>
      refine ⟨ns, ?_⟩
      rw [dfList_cons_none hx, List.filter_cons_of_neg (by simp [hx])]
      exact hns
    | some rs =>
      refine ⟨rs.length :: ns, ?_⟩
      rw [dfList_cons_some hx, List.flatten_cons, List.map_append,
        map_Ticker_processTicker, hns, List.filter_cons_of_pos (by simp [hx]),
        List.zip_cons_cons, List.map_cons, List.flatten_cons]

/-- **C3**: for a duplicate-free request list, when the provider's
per-ticker series have strictly ascending dates, the aggregated table is
a concatenation of constant-ticker blocks following the request order of
the successfully retrieved tickers (contiguous grouping), and the rows
carrying any given ticker have strictly ascending — hence
duplicate-free — dates. -/
theorem claim3_grouping (raw : String → Option (List RawRow))
    (tickers : List String) (sm : Bool) (w : ℕ) (table : List PriceRow)
    (hnd : tickers.Nodup)
    (hdates : ∀ t rs, raw t = some rs →
      List.Chain' (fun a b : RawRow => a.Date < b.Date) rs)
    (hok : (fetch_yfinance_data raw tickers sm w).2 = Except.ok table) :
    (∃ ns : List ℕ, table.map PriceRow.Ticker
        = (((tickers.filter fun t => (raw t).isSome).zip ns).map
            fun p => List.replicate p.2 p.1).flatten) ∧
    ∀ t, List.Chain' (fun a b : PriceRow => a.Date < b.Date)
        (table.filter fun r => r.Ticker == t) := by
  have htable := table_of_fetch_ok hok
  constructor
  · rw [htable]
    exact map_Ticker_flatten_dfList raw sm w tickers
  · intro t
    by_cases hts : t ∈ tickers
    · cases hx : raw t with
      | none =>
        rw [htable, filter_flatten_dfList_nil (Or.inr hx)]
        exact List.chain'_nil
      | some rs =>
        rw [htable, filter_flatten_dfList_block raw sm w tickers hnd t rs hts hx]
        have h1 : List.Chain' (· < ·)
            ((processTicker sm w t rs).map PriceRow.Date) := by
          rw [map_Date_processTicker]
          exact (List.chain'_map RawRow.Date).mpr (hdates t rs hx)
        exact (List.chain'_map PriceRow.Date).mp h1
    · rw [htable, filter_flatten_dfList_nil (Or.inl hts)]
      exact List.chain'_nil

/-- Witness for C3: two tickers with two and one ascending-date rows.
The ticker column is `["A", "A", "B"]` — the blocks `A, A` then `B` in
request order — and each ticker's rows are date-ascending. -/
theorem claim3_grouping_witness :
    ((["A", "B"] : List String).Nodup ∧
      (fetch_yfinance_data
        (fun t => if t = "A"
          then some [⟨0, none, none, none, some 5, none⟩,
                     ⟨1, none, none, none, some 6, none⟩]
          else if t = "B"
            then some [⟨4, none, none, none, some 7, none⟩] else none)
        ["A", "B"] false 20).2
        = Except.ok [⟨0, none, none, none, some 5, none, "A", none⟩,
                     ⟨1, none, none, none, some 6, none, "A", none⟩,
                     ⟨4, none, none, none, some 7, none, "B", none⟩]) ∧
    (∃ ns : List ℕ,
      ([⟨0, none, none, none, some 5, none, "A", none⟩,
        ⟨1, none, none, none, some 6, none, "A", none⟩,
        ⟨4, none, none, none, some 7, none, "B", none⟩] :
          List PriceRow).map PriceRow.Ticker
        = ((((["A", "B"] : List String).filter fun t =>
              ((fun t => if t = "A"
                then some [(⟨0, none, none, none, some 5, none⟩ : RawRow),
                           ⟨1, none, none, none, some 6, none⟩]
                else if t = "B"
                  then some [⟨4, none, none, none, some 7, none⟩]
                  else none) t).isSome).zip ns).map
            fun p => List.replicate p.2 p.1).flatten) ∧
    ∀ t, List.Chain' (fun a b : PriceRow => a.Date < b.Date)
        (([⟨0, none, none, none, some 5, none, "A", none⟩,
           ⟨1, none, none, none, some 6, none, "A", none⟩,
           ⟨4, none, none, none, some 7, none, "B", none⟩] :
             List PriceRow).filter fun r => r.Ticker == t) :=
  ⟨⟨by decide, by rfl⟩,
    claim3_grouping
      (fun t => if t = "A"
        then some [⟨0, none, none, none, some 5, none⟩,
                   ⟨1, none, none, none, some 6, none⟩]
        else if t = "B"
          then some [⟨4, none, none, none, some 7, none⟩] else none)
      ["A", "B"] false 20
      [⟨0, none, none, none, some 5, none, "A", none⟩,
       ⟨1, none, none, none, some 6, none, "A", none⟩,
       ⟨4, none, none, none, some 7, none, "B", none⟩]
      (by decide)
      (by
        intro t rs h
        dsimp only at h
        by_cases h1 : t = "A"
        · subst h1
          rw [if_pos rfl] at h
          injection h with h'
          subst h'
          simp [List.chain'_cons]
        · rw [if_neg h1] at h
          by_cases h2 : t = "B"
          · subst h2
            rw [if_pos rfl] at h
            injection h with h'
            subst h'
            simp
          · rw [if_neg h2] at h
            cases h)
      (by rfl)⟩

/-- **C8, counterexample**: with `"A"` the only ticker that has data and
`"B"` present but data-less, the full aggregation succeeds with `"A"`'s
single row; re-aggregating after removing `"A"` (leaving `["B"]`) does
not yield the original table minus `"A"`'s rows (which would be the
empty table) — `pd.concat` on zero frames raises instead, so no
PriceTable is produced at all. -/
theorem claim8_counterexample :
    (fetch_yfinance_data
      (fun t => if t = "A"
        then some [(⟨0, none, none, none, some 5, none⟩ : RawRow)] else none)
      ["A", "B"] false 20).2
      = Except.ok [⟨0, none, none, none, some 5, none, "A", none⟩] ∧
    (["A", "B"] : List String).erase "A" = ["B"] ∧
    (fetch_yfinance_data
      (fun t => if t = "A"
        then some [(⟨0, none, none, none, some 5, none⟩ : RawRow)] else none)
      ["B"] false 20).2
      = Except.error "No objects to concatenate" ∧
    (fetch_yfinance_data
      (fun t => if t = "A"
        then some [(⟨0, none, none, none, some 5, none⟩ : RawRow)] else none)
      ["B"] false 20).2
      ≠ Except.ok
          (([⟨0, none, none, none, some 5, none, "A", none⟩] :
            List PriceRow).filter fun r => r.Ticker != "A") :=
  ⟨rfl, by decide, rfl, fun h => by cases h⟩

lemma filter_ne_processTicker (sm : Bool) (w : ℕ) (x t : String)
    (rs : List RawRow) :
    (processTicker sm w x rs).filter (fun r => r.Ticker != t)
      = if x = t then [] else processTicker sm w x rs := by
  by_cases hxt : x = t
  · rw [if_pos hxt, List.filter_eq_nil_iff]
    intro r hr
    rw [Ticker_of_mem_processTicker hr, hxt]
    simp
  · rw [if_neg hxt, List.filter_eq_self]
    intro r hr
    rw [Ticker_of_mem_processTicker hr]
    simpa using hxt

lemma filter_ne_flatten_dfList {raw : String → Option (List RawRow)}
    {ts : List String} {sm : Bool} {w : ℕ} {t : String} (h : t ∉ ts) :
    ((dfList raw ts sm w).flatten).filter (fun r => r.Ticker != t)
      = (dfList raw ts sm w).flatten := by
  rw [List.filter_eq_self]
  intro r hr
  obtain ⟨t', _, ht', _, hmem⟩ := of_mem_flatten_dfList hr
  rw [Ticker_of_mem_processTicker hmem]
  simp only [bne_iff_ne, ne_eq]
  intro hEq
  subst hEq
  exact h ht'

lemma flatten_dfList_erase (raw : String → Option (List RawRow))
    (sm : Bool) (w : ℕ) :
    ∀ (ts : List String) (t : String), ts.Nodup → t ∈ ts →
      (dfList raw (ts.erase t) sm w).flatten
        = ((dfList raw ts sm w).flatten).filter (fun r => r.Ticker != t) := by
  intro ts
  induction ts with
  | nil =>
    intro t _ ht
    cases ht
  | cons x ts ih =>
    intro t hnd hmem
    rw [List.nodup_cons] at hnd
    by_cases hxt : x = t
    · subst hxt
      rw [List.erase_cons_head]
      cases hx : raw x with
      | none =>
        rw [dfList_cons_none hx, filter_ne_flatten_dfList hnd.1]
      | some rs =>
        rw [dfList_cons_some hx, List.flatten_cons, List.filter_append,
          filter_ne_processTicker, if_pos rfl, List.nil_append,
          filter_ne_flatten_dfList hnd.1]
    · have hmem' : t ∈ ts := by
        rcases List.mem_cons.mp hmem with h | h
        · exact absurd h.symm hxt
        · exact h
      have herase : (x :: ts).erase t = x :: ts.erase t := by
        rw [List.erase_cons, if_neg (by simpa using hxt)]
      rw [herase]
      cases hx : raw x with
      | none =>
        rw [dfList_cons_none hx, dfList_cons_none hx, ih t hnd.2 hmem']
      | some rs =>
        rw [dfList_cons_some hx, dfList_cons_some hx, List.flatten_cons,
          List.flatten_cons, List.filter_append, filter_ne_processTicker,
          if_neg hxt, ih t hnd.2 hmem']

/-- **C8, amended**: dropping one ticker `t` from a duplicate-free
request list leaves every other ticker's rows (moving averages
included) untouched: the re-aggregation returns exactly the original
table with `t`'s rows deleted — provided at least one remaining ticker
still has data.  (When `t` was the only ticker with data, the
re-aggregation instead fails with the empty-concatenation error, as the
counterexample shows.) -/
theorem claim8_drop_ticker_amended (raw : String → Option (List RawRow))
    (tickers : List String) (sm : Bool) (w : ℕ) (t : String)
    (table : List PriceRow) (hnd : tickers.Nodup) (ht : t ∈ tickers)
    (hok : (fetch_yfinance_data raw tickers sm w).2 = Except.ok table)
    (hrem : ∃ t2 ∈ tickers.erase t, (raw t2).isSome) :
    (fetch_yfinance_data raw (tickers.erase t) sm w).2
      = Except.ok (table.filter fun r => r.Ticker != t) := by
  have htable := table_of_fetch_ok hok
  obtain ⟨t2, ht2, hsome2⟩ := hrem
  obtain ⟨rs2, hrs2⟩ := Option.isSome_iff_exists.mp hsome2
  have hmem2 : processTicker sm w t2 rs2 ∈ dfList raw (tickers.erase t) sm w :=
    List.mem_filterMap.mpr ⟨t2, ht2, by rw [hrs2]; rfl⟩
  have hne : (dfList raw (tickers.erase t) sm w).isEmpty = false := by
    cases hE : (dfList raw (tickers.erase t) sm w).isEmpty
    · rfl
    · rw [List.isEmpty_iff] at hE
      rw [hE] at hmem2
      cases hmem2
  simp only [fetch_yfinance_data, hne]
  rw [if_neg (by simp), flatten_dfList_erase raw sm w tickers t hnd ht,
    htable]

/-- Witness for C8 (amended): both `"A"` and `"B"` have one row of data;
dropping `"A"` leaves exactly `"B"`'s row, i.e. the original table with
`"A"`'s rows filtered out. -/
theorem claim8_drop_ticker_amended_witness :
    ((["A", "B"] : List String).Nodup ∧ "A" ∈ (["A", "B"] : List String) ∧
      (fetch_yfinance_data
        (fun t => if t = "A"
          then some [(⟨0, none, none, none, some 5, none⟩ : RawRow)]
          else some [(⟨3, none, none, none, some 7, none⟩ : RawRow)])
        ["A", "B"] false 20).2
        = Except.ok [⟨0, none, none, none, some 5, none, "A", none⟩,
                     ⟨3, none, none, none, some 7, none, "B", none⟩] ∧
      (∃ t2 ∈ (["A", "B"] : List String).erase "A",
        ((fun t => if t = "A"
          then some [(⟨0, none, none, none, some 5, none⟩ : RawRow)]
          else some [(⟨3, none, none, none, some 7, none⟩ : RawRow)])
            t2).isSome)) ∧
    (fetch_yfinance_data
      (fun t => if t = "A"
        then some [(⟨0, none, none, none, some 5, none⟩ : RawRow)]
        else some [(⟨3, none, none, none, some 7, none⟩ : RawRow)])
      ((["A", "B"] : List String).erase "A") false 20).2
      = Except.ok
          (([⟨0, none, none, none, some 5, none, "A", none⟩,
             ⟨3, none, none, none, some 7, none, "B", none⟩] :
            List PriceRow).filter fun r => r.Ticker != "A") :=
  ⟨⟨by decide, by decide, by rfl, by decide⟩,
    claim8_drop_ticker_amended
      (fun t => if t = "A"
        then some [(⟨0, none, none, none, some 5, none⟩ : RawRow)]
        else some [(⟨3, none, none, none, some 7, none⟩ : RawRow)])
      ["A", "B"] false 20 "A"
      [⟨0, none, none, none, some 5, none, "A", none⟩,
       ⟨3, none, none, none, some 7, none, "B", none⟩]
      (by decide) (by decide) (by rfl) (by decide)⟩

end StocksStreamlit
